import Mathlib

/-!
Verification of the jlserve endpoint definition, validation and dispatch
pipeline (repository `svishnu88/jlserve`), as a shallow embedding in Lean 4.

The embedding mirrors, function by function:
  * `src/jlserve/decorator.py`   (`app`, `endpoint`, `_reset_registry`)
  * `src/jlserve/requirements.py` (`extract_requirements_from_file` and helpers)
  * `src/jlserve/validator.py`    (`validate_app` and the individual checks)
  * `src/jarvis/server.py`        (`create_app`, `_register_endpoint_route`)

Python values that matter to these functions (the `requirements` argument of
the `app` decorator) are modelled by an explicit `PyVal` type; machine-level
details (object identity, attribute dictionaries) are modelled by explicit
record fields holding exactly the data the source reads and writes.
-/

namespace JLServe

/-- A Python runtime value, restricted to the shapes the `app` decorator
inspects: strings, integers, booleans, lists and `None`.  `isinstance(v, str)`
and `isinstance(v, list)` become constructor tests; `type(v).__name__`
becomes `pyTypeName`. -/
inductive PyVal where
  | str (s : String)
  | int (n : Int)
  | bool (b : Bool)
  | list (xs : List PyVal)
  | none

mutual
/-- Boolean equality on `PyVal`, by mutual recursion with list equality. -/
def PyVal.beq : PyVal → PyVal → Bool
  | .str a, .str b => a == b
  | .int a, .int b => a == b
  | .bool a, .bool b => a == b
  | .list xs, .list ys => PyVal.beqList xs ys
  | .none, .none => true
  | _, _ => false

/-- Elementwise `PyVal.beq` on lists. -/
def PyVal.beqList : List PyVal → List PyVal → Bool
  | [], [] => true
  | a :: as, b :: bs => PyVal.beq a b && PyVal.beqList as bs
  | _, _ => false
end

mutual
theorem PyVal.beq_iff : ∀ a b : PyVal, PyVal.beq a b = true ↔ a = b
  | .str a, .str b => by simp [PyVal.beq]
  | .str _, .int _ | .str _, .bool _ | .str _, .list _ | .str _, .none => by
    simp [PyVal.beq]
  | .int _, .str _ => by simp [PyVal.beq]
  | .int a, .int b => by simp [PyVal.beq]
  | .int _, .bool _ | .int _, .list _ | .int _, .none => by simp [PyVal.beq]
  | .bool _, .str _ | .bool _, .int _ => by simp [PyVal.beq]
  | .bool a, .bool b => by simp [PyVal.beq]
  | .bool _, .list _ | .bool _, .none => by simp [PyVal.beq]
  | .list _, .str _ | .list _, .int _ | .list _, .bool _ => by simp [PyVal.beq]
  | .list xs, .list ys => by
    simpa [PyVal.beq] using PyVal.beqList_iff xs ys
  | .list _, .none => by simp [PyVal.beq]
  | .none, .str _ | .none, .int _ | .none, .bool _ | .none, .list _ => by
    simp [PyVal.beq]
  | .none, .none => by simp [PyVal.beq]

theorem PyVal.beqList_iff : ∀ xs ys : List PyVal, PyVal.beqList xs ys = true ↔ xs = ys
  | [], [] => by simp [PyVal.beqList]
  | [], _ :: _ => by simp [PyVal.beqList]
  | _ :: _, [] => by simp [PyVal.beqList]
  | a :: as, b :: bs => by
    simp [PyVal.beqList, PyVal.beq_iff a b, PyVal.beqList_iff as bs]
end

instance : DecidableEq PyVal := fun a b =>
  decidable_of_iff (PyVal.beq a b = true) (PyVal.beq_iff a b)

/-- `type(v).__name__` for the modelled values. -/
def pyTypeName : PyVal → String
  | .str _ => "str"
  | .int _ => "int"
  | .bool _ => "bool"
  | .list _ => "list"
  | .none => "NoneType"

/-- Python `str.isspace` characters, restricted to the ASCII whitespace the
repository's strings can contain. -/
def pyIsSpace (c : Char) : Bool :=
  c = ' ' || c = '\t' || c = '\n' || c = '\r' || c = '\x0b' || c = '\x0c'

/-- Python `s.strip()` with the default (whitespace) argument. -/
def pyStrip (s : String) : String :=
  (s.toList.dropWhile pyIsSpace).reverse.dropWhile pyIsSpace |>.reverse |> String.mk

/-- Python truthiness `name if name else fallback` for an optional string
argument (`None` and `""` are falsy). -/
def pyStrOr (name : Option String) (fallback : String) : String :=
  match name with
  | Option.none => fallback
  | some s => if s = "" then fallback else s

/-- A user-authored class, identified by its `__name__`. -/
structure PyClass where
  name : String
deriving DecidableEq, Repr

/-- The attributes the `app` decorator writes onto the class it returns:
`_jlserve_app`, `_jlserve_app_name` and `_jlserve_requirements`. -/
structure DecoratedClass where
  cls : PyClass
  jlserve_app : Bool
  appName : String
  requirements : List PyVal
deriving DecidableEq

/-- The errors raised by the registration path: `MultipleAppsError` and the
plain `ValueError` used for an invalid `requirements` argument. -/
inductive RegError where
  | multipleApps (msg : String)
  | valueError (msg : String)
deriving DecidableEq, Repr

/-- The module-level registry `_registered_app : Optional[Type]`. -/
abbrev Registry := Option PyClass

/-- The element loop of the `requirements` validation in
`jlserve.decorator.app`: for each index `i`, raise `ValueError` if the element
is not a string, then if it is empty after stripping; otherwise continue. -/
def checkReqList : List PyVal → Nat → Option RegError
  | [], _ => Option.none
  | v :: rest, i =>
    match v with
    | .str s =>
      if pyStrip s = "" then
        some (.valueError ("requirements[" ++ toString i ++ "] must be a non-empty string"))
      else
        checkReqList rest (i + 1)
    | _ => some (.valueError ("requirements[" ++ toString i ++ "] must be a string, got "
        ++ pyTypeName v))

/-- The `if requirements is not None: ...` validation block of
`jlserve.decorator.app`. -/
def checkRequirements : PyVal → Option RegError
  | .none => Option.none
  | .list xs => checkReqList xs 0
  | v => some (.valueError ("requirements must be a list, got " ++ pyTypeName v))

/-- The value stored in `cls._jlserve_requirements`:
`requirements if requirements else []` (only `None` or an already-validated
list reaches this statement; an empty list is falsy and stores `[]`, which is
the same value). -/
def recordedRequirements : PyVal → List PyVal
  | .list xs => xs
  | _ => []

/-- The inner `decorator` function of `jlserve.decorator.app`, as a function
of the current registry state.  On success it returns the new registry state
together with the decorated class; an exception aborts before the global
assignment, so the registry is unchanged in the error case. -/
def appDecorator (reg : Registry) (name : Option String) (requirements : PyVal)
    (cls : PyClass) : Except RegError (Registry × DecoratedClass) :=
  match reg with
  | some existing =>
    .error (.multipleApps
      ("Only one @jlserve.app() class is allowed per module. Found existing app '"
        ++ existing.name ++ "' and attempted to register '" ++ cls.name
        ++ "'. For ML inference use cases, deploy each model as a separate app."))
  | Option.none =>
    match checkRequirements requirements with
    | some e => .error e
    | Option.none =>
      .ok (some cls,
        { cls := cls
          jlserve_app := true
          appName := pyStrOr name cls.name
          requirements := recordedRequirements requirements })

/-- The registry state after running the decorator under Python exception
semantics: a raised error leaves the module-level `_registered_app` untouched
(the assignment `_registered_app = cls` is only reached on success). -/
def appDecoratorPostRegistry (reg : Registry) (name : Option String)
    (requirements : PyVal) (cls : PyClass) : Registry :=
  match appDecorator reg name requirements cls with
  | .ok (reg', _) => reg'
  | .error _ => reg

/-- `jlserve.decorator._reset_registry`. -/
def resetRegistry (_reg : Registry) : Registry := Option.none

/-- Outcome of calling a Python callable: a returned value or a raised
exception (an `Exception` subclass carrying its message). -/
inductive PyResult (α : Type) where
  | ok (v : α)
  | exn (msg : String)
deriving DecidableEq, Repr

/-- A method of an app class as the dispatch layer sees it: its `__name__`
and its behaviour as a function from an argument list to a result. -/
structure Method (α β : Type) where
  name : String
  call : α → PyResult β

/-- A method after `@jlserve.endpoint(path)`: the wrapper callable plus the
attributes `_jlserve_endpoint` and `_jlserve_endpoint_path` the decorator
sets on it.  `functools.wraps` copies `__name__` from the wrapped method. -/
structure TaggedMethod (α β : Type) where
  name : String
  call : α → PyResult β
  jlserve_endpoint : Bool
  jlserve_endpoint_path : String

/-- The inner `decorator` of `jlserve.decorator.endpoint`: build the wrapper
(which forwards `*args, **kwargs` to the wrapped method), mark it, and record
`path if path else "/" + method.__name__` (`None` and `""` are falsy). -/
def endpointDecorator {α β : Type} (path : Option String) (m : Method α β) :
    TaggedMethod α β :=
  { name := m.name
    call := fun args => m.call args
    jlserve_endpoint := true
    jlserve_endpoint_path :=
      match path with
      | Option.none => "/" ++ m.name
      | some p => if p = "" then "/" ++ m.name else p }

end JLServe

namespace PyAst

/-!
Model of the fragment of the Python AST that
`jlserve.requirements.extract_requirements_from_file` inspects.  Expressions
appear as decorator expressions; statements carry the nesting structure that
`ast.walk` traverses.
-/

/-- A Python expression node (`ast.expr`), restricted to the shapes the
extractor distinguishes: names, attribute accesses, calls with keyword
arguments, string and non-string literal constants, list displays, and
anything else. -/
inductive Expr where
  | name (id : String)
  | attributeExpr (value : Expr) (attr : String)
  | call (func : Expr) (keywords : List (Option String × Expr))
  | constStr (s : String)
  | constOther
  | listLit (elts : List Expr)
  | otherExpr

/-- A Python statement node.  `classDef` is `ast.ClassDef` with its decorator
list and body; `block` stands for any other compound statement whose directly
nested statements are AST children of the node itself (`FunctionDef`,
`AsyncFunctionDef`, `If`, `For`, `While`, `With` — for these,
`ast.iter_child_nodes` yields the nested statements directly, in source
order); `simple` is a statement with no nested statements. -/
inductive Stmt where
  | classDef (name : String) (decorator_list : List Expr) (body : List Stmt)
  | block (body : List Stmt)
  | simple

/-- The statement children of a statement node, in the order
`ast.iter_child_nodes` yields them (for `ClassDef` the body statements are
the only statement children; decorator expressions contain no statements). -/
def childrenOf : Stmt → List Stmt
  | .classDef _ _ body => body
  | .block body => body
  | .simple => []

/-- An explicit size measure on statement lists, used as recursion fuel for
the traversals (the auto-generated `SizeOf` of the nested inductive is not
executable). -/
def stmtsSize : List Stmt → Nat
  | [] => 1
  | .classDef _ _ body :: rest => 2 + stmtsSize body + stmtsSize rest
  | .block body :: rest => 2 + stmtsSize body + stmtsSize rest
  | .simple :: rest => 2 + stmtsSize rest

theorem one_le_stmtsSize (q : List Stmt) : 1 ≤ stmtsSize q := by
  cases q with
  | nil => simp [stmtsSize]
  | cons s rest => cases s <;> simp only [stmtsSize] <;> omega

theorem stmtsSize_append (as bs : List Stmt) :
    stmtsSize (as ++ bs) + 1 = stmtsSize as + stmtsSize bs := by
  induction as with
  | nil => simp only [List.nil_append, stmtsSize]; omega
  | cons a as ih =>
    cases a <;> simp only [List.cons_append, stmtsSize] <;> omega

/-- Popping the front of the queue and appending its children strictly
shrinks the queue measure. -/
theorem stmtsSize_queue_step (s : Stmt) (rest : List Stmt) :
    stmtsSize (rest ++ childrenOf s) + 1 ≤ stmtsSize (s :: rest) := by
  have h := stmtsSize_append rest (childrenOf s)
  cases s <;>
    simp only [childrenOf, stmtsSize, List.append_nil] at h ⊢ <;>
    omega

theorem stmtsSize_children_le (s : Stmt) (rest : List Stmt) :
    stmtsSize (childrenOf s) + 1 ≤ stmtsSize (s :: rest) := by
  have h1 := one_le_stmtsSize rest
  cases s <;> simp only [childrenOf, stmtsSize] <;> omega

theorem stmtsSize_rest_le (s : Stmt) (rest : List Stmt) :
    stmtsSize rest + 1 ≤ stmtsSize (s :: rest) := by
  cases s <;> simp only [stmtsSize] <;> omega

/-- Fuel-bounded worker for the breadth-first queue of `ast.walk`: each step
pops the front statement and appends its statement children to the queue.
The fuel only makes the recursion structural; `walkStmts` supplies enough
fuel for the queue to drain, so the zero-fuel branch is unreachable from
`walkStmts` (`walkStmts_cons` recovers the exact queue recurrence). -/
def walkAux : Nat → List Stmt → List Stmt
  | _, [] => []
  | fuel + 1, s :: rest => s :: walkAux fuel (rest ++ childrenOf s)
  | 0, q => q

/-- `ast.walk` restricted to statement nodes: a breadth-first traversal with
a FIFO queue, starting (for a module) from the module body.  Non-statement
children (decorator and other expressions) are irrelevant to the extractor
because no statement — in particular no `ClassDef` — can occur inside an
expression. -/
def walkStmts (q : List Stmt) : List Stmt := walkAux (stmtsSize q) q

/-- With enough fuel, `walkAux` no longer depends on the fuel. -/
theorem walkAux_fuel (n : Nat) : ∀ (m : Nat) (q : List Stmt),
    stmtsSize q ≤ n → stmtsSize q ≤ m → walkAux n q = walkAux m q := by
  induction n with
  | zero =>
    intro m q hn _
    have := one_le_stmtsSize q
    omega
  | succ n ih =>
    intro m q hn hm
    cases q with
    | nil => cases m <;> rfl
    | cons s rest =>
      have hq := one_le_stmtsSize (s :: rest)
      have hstep := stmtsSize_queue_step s rest
      cases m with
      | zero => omega
      | succ m' =>
        simp only [walkAux]
        rw [ih m' (rest ++ childrenOf s) (by omega) (by omega)]

/-- The queue recurrence of `ast.walk` on an empty queue. -/
theorem walkStmts_nil : walkStmts [] = [] := by
  unfold walkStmts
  cases hs : stmtsSize [] with
  | zero => rfl
  | succ n => rfl

/-- The queue recurrence of `ast.walk`: yield the front of the queue, then
walk the rest of the queue extended with the front's children.  Together
with `walkStmts_nil` this pins `walkStmts` to the breadth-first order of
the Python generator. -/
theorem walkStmts_cons (s : Stmt) (rest : List Stmt) :
    walkStmts (s :: rest) = s :: walkStmts (rest ++ childrenOf s) := by
  have hq := one_le_stmtsSize (s :: rest)
  have hstep := stmtsSize_queue_step s rest
  obtain ⟨k, hk⟩ : ∃ k, stmtsSize (s :: rest) = k + 1 :=
    ⟨stmtsSize (s :: rest) - 1, by omega⟩
  unfold walkStmts
  rw [hk]
  simp only [walkAux]
  rw [walkAux_fuel k (stmtsSize (rest ++ childrenOf s)) (rest ++ childrenOf s)
    (by omega) (le_refl _)]

/-- The callee selection at the top of
`jlserve.requirements._is_jlserve_app_decorator`: for a `Call` take its
`func`; a bare `Attribute` or `Name` is its own callee; anything else is
rejected. -/
def funcOf : Expr → Option Expr
  | .call f _ => some f
  | .attributeExpr v a => some (.attributeExpr v a)
  | .name i => some (.name i)
  | _ => Option.none

/-- The two acceptance tests of `_is_jlserve_app_decorator`: an attribute
access whose attribute is `app` (any prefix is accepted), or the bare name
`app`. -/
def isAppFunc : Expr → Bool
  | .attributeExpr _ a => a == "app"
  | .name i => i == "app"
  | _ => false

/-- `jlserve.requirements._is_jlserve_app_decorator`. -/
def is_jlserve_app_decorator (d : Expr) : Bool :=
  match funcOf d with
  | some f => isAppFunc f
  | Option.none => false

/-- The element loop of `jlserve.requirements._extract_requirements_arg`:
collect the literal-string elements, silently skipping everything else. -/
def collectLiteralStrings : List Expr → List String
  | [] => []
  | .constStr s :: rest => s :: collectLiteralStrings rest
  | _ :: rest => collectLiteralStrings rest

/-- The keyword loop of `_extract_requirements_arg`: on a keyword named
`requirements` whose value is a list display, return its literal strings;
a `requirements` keyword with a non-list value falls through the loop. -/
def findReqKeyword : List (Option String × Expr) → List String
  | [] => []
  | (arg, v) :: rest =>
    if arg = some "requirements" then
      match v with
      | .listLit elts => collectLiteralStrings elts
      | _ => findReqKeyword rest
    else findReqKeyword rest

/-- `jlserve.requirements._extract_requirements_arg`: only `Call` nodes have
keyword arguments. -/
def extract_requirements_arg : Expr → List String
  | .call _ kws => findReqKeyword kws
  | _ => []

/-- The search loop of `extract_requirements_from_file`: scan the walk order
for the first `ClassDef` one of whose decorators (first in decorator order)
passes `_is_jlserve_app_decorator`, and return that decorator. -/
def firstAppDecorator : List Stmt → Option Expr
  | [] => Option.none
  | .classDef _ decs _ :: rest =>
    match decs.find? is_jlserve_app_decorator with
    | some d => some d
    | Option.none => firstAppDecorator rest
  | _ :: rest => firstAppDecorator rest

/-- `jlserve.requirements.extract_requirements_from_file`, applied to the
already-parsed module body (file reading and `ast.parse` are outside the
model; their failures propagate uninterpreted). -/
def extract_requirements_from_file (tree : List Stmt) : List String :=
  match firstAppDecorator (walkStmts tree) with
  | some d => extract_requirements_arg d
  | Option.none => []

/-- The decorator expressions attached to a statement node. -/
def decoratorsOfStmt : Stmt → List Expr
  | .classDef _ decs _ => decs
  | _ => []

end PyAst

namespace PyAstSpec

/-!
Specification-side definitions for claim C2, written from the claim's words
rather than from the source, for the refinement comparison.
-/

open PyAst

/-- Claim wording: a decorator matches when it is a call or a bare reference
whose callee is the bare name `app` or an attribute reference ending in
`.app`. -/
def specIsAppDecorator : Expr → Bool
  | .call (.name i) _ => i == "app"
  | .call (.attributeExpr _ a) _ => a == "app"
  | .name i => i == "app"
  | .attributeExpr _ a => a == "app"
  | _ => false

/-- Claim wording: the list's literal-string elements in order, silently
skipping non-string literal elements. -/
def specLiteralStrings (elts : List Expr) : List String :=
  elts.filterMap fun e =>
    match e with
    | .constStr s => some s
    | _ => Option.none

/-- Claim wording: if the decorator is a call supplying a keyword argument
named `requirements` whose value is a literal list, the result is that list's
literal strings; in every other case the result is the empty list. -/
def specRequirementsOf : Expr → List String
  | .call _ kws =>
    match kws.find? (fun kv => kv.1 = some "requirements") with
    | some (_, .listLit elts) => specLiteralStrings elts
    | _ => []
  | _ => []

/-- The first matching decorator along a given statement order: for the first
class in the order carrying a matching decorator, its first matching
decorator. -/
def specFirstAppDecoratorIn : List Stmt → Option Expr
  | [] => Option.none
  | .classDef _ decs _ :: rest =>
    match decs.find? specIsAppDecorator with
    | some d => some d
    | Option.none => specFirstAppDecoratorIn rest
  | _ :: rest => specFirstAppDecoratorIn rest

/-- Fuel-bounded worker for the depth-first pre-order traversal; as with
`walkAux`, the fuel only makes the recursion structural and `declOrder`
always supplies enough (`declOrder_cons` recovers the recurrence). -/
def declAux : Nat → List Stmt → List Stmt
  | _, [] => []
  | fuel + 1, s :: rest => s :: (declAux fuel (childrenOf s) ++ declAux fuel rest)
  | 0, q => q

/-- Declaration (source) order of the statements of a module: a depth-first
pre-order traversal. -/
def declOrder (q : List Stmt) : List Stmt := declAux (stmtsSize q) q

/-- With enough fuel, `declAux` no longer depends on the fuel. -/
theorem declAux_fuel (n : Nat) : ∀ (m : Nat) (q : List Stmt),
    stmtsSize q ≤ n → stmtsSize q ≤ m → declAux n q = declAux m q := by
  induction n with
  | zero =>
    intro m q hn _
    have := one_le_stmtsSize q
    omega
  | succ n ih =>
    intro m q hn hm
    cases q with
    | nil => cases m <;> rfl
    | cons s rest =>
      have hc := stmtsSize_children_le s rest
      have hr := stmtsSize_rest_le s rest
      cases m with
      | zero =>
        have := one_le_stmtsSize (s :: rest)
        omega
      | succ m' =>
        simp only [declAux]
        rw [ih m' (childrenOf s) (by omega) (by omega),
          ih m' rest (by omega) (by omega)]

/-- The depth-first traversal of an empty statement list. -/
theorem declOrder_nil : declOrder [] = [] := by
  unfold declOrder
  cases hs : stmtsSize [] with
  | zero => rfl
  | succ n => rfl

/-- The depth-first recurrence: a statement precedes its nested statements,
which precede its later siblings. -/
theorem declOrder_cons (s : Stmt) (rest : List Stmt) :
    declOrder (s :: rest) = s :: (declOrder (childrenOf s) ++ declOrder rest) := by
  have hq := one_le_stmtsSize (s :: rest)
  have hc := stmtsSize_children_le s rest
  have hr := stmtsSize_rest_le s rest
  obtain ⟨k, hk⟩ : ∃ k, stmtsSize (s :: rest) = k + 1 :=
    ⟨stmtsSize (s :: rest) - 1, by omega⟩
  unfold declOrder
  rw [hk]
  simp only [declAux]
  rw [declAux_fuel k (stmtsSize (childrenOf s)) (childrenOf s) (by omega) (le_refl _),
    declAux_fuel k (stmtsSize rest) rest (by omega) (le_refl _)]

/-- Claim C2 exactly as stated: the requirements of the first class in
declaration order that carries a matching decorator (empty when there is
none, or when the matching decorator yields no literal requirements list). -/
def claimC2Extraction (tree : List Stmt) : List String :=
  match specFirstAppDecoratorIn (declOrder tree) with
  | some d => specRequirementsOf d
  | Option.none => []

/-- The amended reading: the same extraction, but along the breadth-first
walk order the source actually uses. -/
def amendedC2Extraction (tree : List Stmt) : List String :=
  match specFirstAppDecoratorIn (walkStmts tree) with
  | some d => specRequirementsOf d
  | Option.none => []

/-- Well-formedness of a parsed Python tree for C2: no call supplies two
keyword arguments with the same explicit name (duplicate keyword names are a
Python `SyntaxError`, so every syntactically valid source parses to a tree
with this property).  Only decorator expressions are constrained because only
they are inspected. -/
def decoratorKwsNodup (tree : List Stmt) : Prop :=
  ∀ s ∈ walkStmts tree, ∀ d ∈ decoratorsOfStmt s,
    match d with
    | Expr.call _ kws => (kws.filterMap Prod.fst).Nodup
    | _ => True

end PyAstSpec

namespace Validator

/-!
Model of `src/jlserve/validator.py`.  `get_type_hints`/`inspect.signature`
reflection is made explicit: an endpoint method carries its parameter-name
list, its resolved annotations, and its resolved endpoint path.
-/

/-- A resolved annotation object: how it renders inside an f-string, and the
result of `_is_pydantic_model` on it (`isinstance(t, type) and
issubclass(t, BaseModel)`). -/
structure Annot where
  reprStr : String
  isPydanticModel : Bool
deriving DecidableEq, Repr

/-- One `@jlserve.endpoint()`-tagged method as the validator sees it:
`__name__`, the `inspect.signature` parameter names in declaration order,
the `get_type_hints` entries for parameters, the `"return"` entry, and the
`_jlserve_endpoint_path` attribute. -/
structure EpMethod where
  name : String
  params : List String
  hints : List (String × Annot)
  ret : Option Annot
  path : String
deriving DecidableEq, Repr

/-- `hints.get(p)` / `p in hints` for a parameter name. -/
def hintFor (m : EpMethod) (p : String) : Option Annot :=
  (m.hints.find? fun kv => kv.1 = p).map Prod.snd

/-- `jlserve.validator.validate_method_type_hints`, returning the
`EndpointValidationError` message raised, if any. -/
def validate_method_type_hints (m : EpMethod) : Option String :=
  match m.params with
  | _ :: input_param :: _ =>
    match hintFor m input_param with
    | Option.none =>
      some ("Endpoint method " ++ m.name ++ "() must have a type hint for input parameter '"
        ++ input_param ++ "'")
    | some _ =>
      match m.ret with
      | Option.none => some ("Endpoint method " ++ m.name ++ "() must have a return type hint")
      | some _ => Option.none
  | _ =>
    some ("Endpoint method " ++ m.name ++ "() must accept an input parameter with a type hint")

/-- `jlserve.validator.validate_method_input_is_pydantic_model`.  When the
hint is absent the f-string renders `None`.  (The parameter-list access is
guarded: in `validate_endpoint_methods` this check only runs after
`validate_method_type_hints` has established a second parameter, so the
fallback branch is unreachable in the validation pipeline.) -/
def validate_method_input_is_pydantic_model (m : EpMethod) : Option String :=
  match m.params with
  | _ :: input_param :: _ =>
    match hintFor m input_param with
    | some t =>
      if t.isPydanticModel then Option.none
      else some ("Endpoint method " ++ m.name
        ++ "(): input type must be a Pydantic BaseModel subclass, got " ++ t.reprStr)
    | Option.none =>
      some ("Endpoint method " ++ m.name
        ++ "(): input type must be a Pydantic BaseModel subclass, got None")
  | _ => Option.none

/-- `jlserve.validator.validate_method_output_is_pydantic_model`. -/
def validate_method_output_is_pydantic_model (m : EpMethod) : Option String :=
  match m.ret with
  | some t =>
    if t.isPydanticModel then Option.none
    else some ("Endpoint method " ++ m.name
      ++ "(): return type must be a Pydantic BaseModel subclass, got " ++ t.reprStr)
  | Option.none =>
    some ("Endpoint method " ++ m.name
      ++ "(): return type must be a Pydantic BaseModel subclass, got None")

/-- The per-method body of the loop in
`jlserve.validator.validate_endpoint_methods`: the three checks in order,
first raised error wins. -/
def validateMethod (m : EpMethod) : Option String :=
  validate_method_type_hints m <|>
    validate_method_input_is_pydantic_model m <|>
      validate_method_output_is_pydantic_model m

/-- `jlserve.validator.validate_endpoint_methods` over the list
`get_endpoint_methods(cls)` (which `dir()` yields sorted by attribute
name). -/
def validate_endpoint_methods : List EpMethod → Option String
  | [] => Option.none
  | m :: rest => validateMethod m <|> validate_endpoint_methods rest

/-- The loop of `jlserve.validator.validate_no_duplicate_paths`: `seen`
models the `paths` dict mapping each already-seen path to the `__name__`
that first claimed it. -/
def dupPathLoop : List EpMethod → List (String × String) → Option String
  | [], _ => Option.none
  | m :: rest, seen =>
    match seen.find? fun kv => kv.1 = m.path with
    | some kv =>
      some ("Duplicate endpoint path '" ++ m.path ++ "' found in methods "
        ++ kv.2 ++ "() and " ++ m.name ++ "()")
    | Option.none => dupPathLoop rest ((m.path, m.name) :: seen)

/-- `jlserve.validator.validate_no_duplicate_paths`. -/
def validate_no_duplicate_paths (ms : List EpMethod) : Option String :=
  dupPathLoop ms []

/-- The signature data of a plain (lifecycle) method: whether the attribute
is callable, its parameter names, and the rendering of its return
annotation (`Option.none` when unannotated). -/
structure LifecycleSig where
  callable : Bool
  params : List String
  retAnnot : Option String
deriving DecidableEq, Repr

/-- An app class as the validator sees it: `__name__`, the `_jlserve_app`
attribute (absent attributes read as `False` via `getattr`), the endpoint
methods `get_endpoint_methods` finds, and the `setup` / `download_weights`
attributes when present. -/
structure AppCls where
  name : String
  jlserve_app : Bool
  methods : List EpMethod
  setupMethod : Option LifecycleSig
  downloadWeightsMethod : Option LifecycleSig
deriving DecidableEq, Repr

/-- `jlserve.validator.validate_is_jlserve_app`. -/
def validate_is_jlserve_app (cls : AppCls) : Option String :=
  if cls.jlserve_app then Option.none
  else some ("Class " ++ cls.name ++ " must be decorated with @jlserve.app()")

/-- `jlserve.validator.validate_has_endpoint_methods`. -/
def validate_has_endpoint_methods (cls : AppCls) : Option String :=
  if cls.methods.isEmpty then
    some ("App " ++ cls.name
      ++ " must have at least one method decorated with @jlserve.endpoint()")
  else Option.none

/-- Python `repr` of a list of strings, e.g. `['self', 'cache_dir']`. -/
def pyListRepr (xs : List String) : String :=
  "[" ++ String.intercalate ", " (xs.map fun x => "'" ++ x ++ "'") ++ "]"

/-- Modelled from the spec: `validate_download_weights_method` is called by
`validate_app` (strict mode) and exercised by `validator_test.py`, but its
definition is missing from `src/jlserve/validator.py`.  Per the spec, the
weight-materialization hook must be a zero-argument method "accepting only
the implicit receiver" and "returning no meaningful value", and "violations
report which extra parameters were found and what was returned instead of
nothing"; the message fragments are the ones the in-source tests assert. -/
def validate_download_weights_method (cls : AppCls) : Option String :=
  match cls.downloadWeightsMethod with
  | Option.none => some ("App " ++ cls.name ++ " must define a download_weights() method")
  | some m =>
    if ¬ m.callable then some "download_weights must be a method"
    else if m.params ≠ ["self"] then
      some ("download_weights() must only accept 'self', got " ++ pyListRepr m.params)
    else
      match m.retAnnot with
      | Option.none => Option.none
      | some r =>
        if r = "None" then Option.none
        else some ("download_weights() must return None, got " ++ r)

/-- `jlserve.validator.validate_app`: the fail-fast sequence of checks, with
the strict-mode extra check guarded by `require_download_weights`. -/
def validate_app (cls : AppCls) (require_download_weights : Bool) : Option String :=
  validate_is_jlserve_app cls <|>
    validate_has_endpoint_methods cls <|>
      validate_endpoint_methods cls.methods <|>
        validate_no_duplicate_paths cls.methods <|>
          (if require_download_weights then validate_download_weights_method cls
           else Option.none)

end Validator

namespace Server

/-!
Model of `src/jarvis/server.py` (`create_app` and
`_register_endpoint_route`).  `jarvis.validator.validate_app` is imported by
`server.py` but missing from `src/jarvis/validator.py`; it is modelled from
the spec (§4.3) by the in-source `jlserve` validator, which implements
exactly the contract the spec describes for `validate`.
-/

open JLServe

/-- A tagged endpoint method together with its runtime behaviour on the
shared app instance: calling the bound method with the request's input
either returns a value or raises. -/
structure RtMethod where
  sig : Validator.EpMethod
  run : PyVal → PyResult PyVal

/-- An app class as the dispatch binder sees it: the validation-relevant
data plus the runtime behaviour of its methods and of its optional `setup`
lifecycle hook. -/
structure RtAppCls where
  name : String
  is_app : Bool
  appName : Option String
  methods : List RtMethod
  setupBehaviour : Option (PyResult Unit)
  downloadWeightsMethod : Option Validator.LifecycleSig

/-- The validator's view of a runtime app class. -/
def RtAppCls.toV (c : RtAppCls) : Validator.AppCls :=
  { name := c.name
    jlserve_app := c.is_app
    methods := c.methods.map (·.sig)
    setupMethod := Option.none
    downloadWeightsMethod := c.downloadWeightsMethod }

/-- `getattr(captured_instance, captured_method_name)`: attribute lookup on
the shared instance resolves the method by name on its class. -/
def methodByName (c : RtAppCls) (n : String) : Option RtMethod :=
  c.methods.find? fun m => m.sig.name = n

/-- What a registered route hands back to the web framework. -/
inductive Response where
  | success (v : PyVal)
  | jsonError (status : Nat) (detail : String)
deriving DecidableEq

/-- The `handler` closure built by
`jarvis.server._register_endpoint_route.create_handler`: resolve the method
by name on the captured instance (outside the `try`), call it with the
input, and turn a raised `Exception` into `JSONResponse(status_code=500,
content={"detail": str(e)})`. -/
def routeHandler (c : RtAppCls) (methodName : String) (input : PyVal) :
    PyResult Response :=
  match methodByName c methodName with
  | some m =>
    match m.run input with
    | .ok v => .ok (.success v)
    | .exn msg => .ok (.jsonError 500 msg)
  | Option.none => .exn ("AttributeError: " ++ methodName)

/-- The single shared app instance, identified by its class name and a
creation index. -/
structure Instance where
  clsName : String
  uid : Nat
deriving DecidableEq, Repr

/-- One registered route: the path, the captured method name and instance,
and the resulting handler behaviour. -/
structure Route where
  path : String
  methodName : String
  boundInstance : Instance
  handler : PyVal → PyResult Response

/-- The FastAPI application produced by `create_app`: its title, the single
shared instance, the registered routes, and the behaviour of the `setup`
hook the lifespan will run. -/
structure BoundService where
  title : String
  app_instance : Instance
  routes : List Route
  setupBehaviour : Option (PyResult Unit)

/-- `jarvis.server.create_app`.  The second component counts how many times
`app_cls()` was executed.  The validator is called first
(`jarvis.validator.validate_app` is modelled from the spec by the in-source
`jlserve` `validate_app`, non-strict); a validation error propagates before
the instantiation statement runs. -/
def create_app (c : RtAppCls) (nextUid : Nat) :
    Except String BoundService × Nat :=
  match Validator.validate_app c.toV false with
  | some e => (.error e, 0)
  | Option.none =>
    let inst : Instance := { clsName := c.name, uid := nextUid }
    (.ok
      { title := (c.appName).getD "app"
        app_instance := inst
        routes := c.methods.map fun m =>
          { path := m.sig.path
            methodName := m.sig.name
            boundInstance := inst
            handler := fun input => routeHandler c m.sig.name input }
        setupBehaviour := c.setupBehaviour }, 1)

/-- The lifecycle states of a bound service (spec §3, `BoundService`). -/
inductive ServiceState where
  | uninitialized
  | ready
  | failed
deriving DecidableEq, Repr

/-- The error raised by the lifespan when `setup` fails:
`EndpointSetupError(f"setup() failed: {e}")`. -/
inductive ServerError where
  | endpointSetupError (msg : String)
deriving DecidableEq, Repr

/-- The part of the `lifespan` context manager before `yield`: run `setup`
when the instance has one; a raised error is wrapped in
`EndpointSetupError` and startup fails (the framework never marks the
service ready), otherwise the service becomes ready. -/
def startup (svc : BoundService) : ServiceState × Option ServerError :=
  match svc.setupBehaviour with
  | Option.none => (.ready, Option.none)
  | some (.ok _) => (.ready, Option.none)
  | some (.exn msg) => (.failed, some (.endpointSetupError ("setup() failed: " ++ msg)))

/-- Request dispatch against a service in a given lifecycle state: only a
ready service routes requests (spec §4.4: no request is dispatchable unless
the service reached `ready`). -/
def dispatch (svc : BoundService) (st : ServiceState) (path : String)
    (input : PyVal) : Option (PyResult Response) :=
  if st = ServiceState.ready then
    match svc.routes.find? fun r => r.path = path with
    | some r => some (r.handler input)
    | Option.none => Option.none
  else Option.none

end Server


namespace Examples

/-- A module with an app-decorated class nested inside another class, before
a later top-level app-decorated class: in source (declaration) order `Inner`
comes first, but `ast.walk` is breadth-first and reaches `Late` first. -/
def nestedAppTree : List PyAst.Stmt :=
  [PyAst.Stmt.classDef "Outer" []
      [PyAst.Stmt.classDef "Inner"
        [PyAst.Expr.call (PyAst.Expr.name "app")
          [(some "requirements", PyAst.Expr.listLit [PyAst.Expr.constStr "x"])]] []],
    PyAst.Stmt.classDef "Late"
      [PyAst.Expr.call (PyAst.Expr.name "app")
        [(some "requirements", PyAst.Expr.listLit [PyAst.Expr.constStr "y"])]] []]

/-- A module with a single `@jlserve.app(requirements=["torch", 1, "numpy"])`
class, a preceding plain function and a non-string requirements element. -/
def simpleAppTree : List PyAst.Stmt :=
  [PyAst.Stmt.block [PyAst.Stmt.simple],
    PyAst.Stmt.classDef "MyApp"
      [PyAst.Expr.call (PyAst.Expr.attributeExpr (PyAst.Expr.name "jlserve") "app")
        [(some "name", PyAst.Expr.constStr "my-app"),
          (some "requirements",
            PyAst.Expr.listLit [PyAst.Expr.constStr "torch", PyAst.Expr.constOther,
              PyAst.Expr.constStr "numpy"])]] []]

end Examples

/-! ## Helper lemmas -/

theorem orElse_eq_none_iff (a b : Option String) :
    (a <|> b) = Option.none ↔ a = Option.none ∧ b = Option.none := by
  cases a <;> simp [Option.orElse]

theorem orElse_eq_some_left (a b : Option String) (e : String) (h : a = some e) :
    (a <|> b) = some e := by
  subst h; rfl

theorem orElse_none_left (a b : Option String) (h : a = Option.none) :
    (a <|> b) = b := by
  subst h; cases b <;> rfl

/-- Stepping `checkReqList` over a prefix of valid requirement strings. -/
theorem checkReqList_append_ok (pre rest : List JLServe.PyVal) (i : Nat)
    (h : ∀ x ∈ pre, ∃ s, x = JLServe.PyVal.str s ∧ JLServe.pyStrip s ≠ "") :
    JLServe.checkReqList (pre ++ rest) i = JLServe.checkReqList rest (i + pre.length) := by
  induction pre generalizing i with
  | nil => simp
  | cons a pre ih =>
    obtain ⟨s, rfl, hs⟩ := h a (by simp)
    have h2 := ih (i + 1) (fun x hx => h x (by simp [hx]))
    have h3 : i + 1 + pre.length = i + (pre.length + 1) := by omega
    simp only [List.cons_append, JLServe.checkReqList, if_neg hs, List.length_cons]
    exact h3 ▸ h2

/-! ## Claim C1 -/

/-- C1: with some app class already registered, decorating any second class
raises `MultipleAppsError` whose message names both the registered class and
the attempted one; the registry still holds the first class afterwards, and
an explicit reset clears it. -/
theorem app_decorator_single_writer (existing cls : JLServe.PyClass)
    (reg : JLServe.Registry) (h : reg = some existing)
    (name : Option String) (requirements : JLServe.PyVal) :
    JLServe.appDecorator reg name requirements cls =
      .error (.multipleApps
        ("Only one @jlserve.app() class is allowed per module. Found existing app '"
          ++ existing.name ++ "' and attempted to register '" ++ cls.name
          ++ "'. For ML inference use cases, deploy each model as a separate app.")) ∧
    JLServe.appDecoratorPostRegistry reg name requirements cls = some existing ∧
    JLServe.resetRegistry reg = Option.none := by
  subst h
  exact ⟨rfl, rfl, rfl⟩

/-- Witness for C1: concrete classes `First` and `Second`. -/
theorem app_decorator_single_writer_witness :
    JLServe.appDecorator (some ⟨"First"⟩) Option.none JLServe.PyVal.none ⟨"Second"⟩ =
      .error (.multipleApps
        ("Only one @jlserve.app() class is allowed per module. Found existing app 'First'"
          ++ " and attempted to register 'Second'."
          ++ " For ML inference use cases, deploy each model as a separate app.")) ∧
    JLServe.appDecoratorPostRegistry (some ⟨"First"⟩) Option.none JLServe.PyVal.none
      ⟨"Second"⟩ = some ⟨"First"⟩ ∧
    JLServe.resetRegistry (some ⟨"First"⟩) = Option.none :=
  app_decorator_single_writer ⟨"First"⟩ ⟨"Second"⟩ (some ⟨"First"⟩) rfl Option.none
    JLServe.PyVal.none

/-! ## Claim C9 -/

/-- C9: registration validates `requirements`: a present non-list value fails
naming the actual type; the first element that is not a string, or is empty
after trimming, fails naming its index (and, for non-strings, its type); with
no `requirements` the class records an empty list, and a valid list is
recorded unchanged. -/
theorem app_requirements_validation (cls : JLServe.PyClass) (name : Option String) :
    (∀ v : JLServe.PyVal, (∀ xs, v ≠ .list xs) → v ≠ .none →
      JLServe.appDecorator Option.none name v cls =
        .error (.valueError ("requirements must be a list, got " ++ JLServe.pyTypeName v))) ∧
    (∀ pre rest s,
      (∀ x ∈ pre, ∃ t, x = JLServe.PyVal.str t ∧ JLServe.pyStrip t ≠ "") →
      JLServe.pyStrip s = "" →
      JLServe.appDecorator Option.none name (.list (pre ++ .str s :: rest)) cls =
        .error (.valueError ("requirements[" ++ toString pre.length
          ++ "] must be a non-empty string"))) ∧
    (∀ pre rest v,
      (∀ x ∈ pre, ∃ t, x = JLServe.PyVal.str t ∧ JLServe.pyStrip t ≠ "") →
      (∀ t, v ≠ JLServe.PyVal.str t) →
      JLServe.appDecorator Option.none name (.list (pre ++ v :: rest)) cls =
        .error (.valueError ("requirements[" ++ toString pre.length
          ++ "] must be a string, got " ++ JLServe.pyTypeName v))) ∧
    (JLServe.appDecorator Option.none name JLServe.PyVal.none cls =
      .ok (some cls,
        { cls := cls, jlserve_app := true, appName := JLServe.pyStrOr name cls.name
          requirements := [] })) ∧
    (∀ xs, (∀ x ∈ xs, ∃ t, x = JLServe.PyVal.str t ∧ JLServe.pyStrip t ≠ "") →
      JLServe.appDecorator Option.none name (.list xs) cls =
        .ok (some cls,
          { cls := cls, jlserve_app := true, appName := JLServe.pyStrOr name cls.name
            requirements := xs })) := by
  refine ⟨?_, ?_, ?_, rfl, ?_⟩
  · intro v hlist hnone
    cases v with
    | list xs => exact absurd rfl (hlist xs)
    | none => exact absurd rfl hnone
    | str s => rfl
    | int n => rfl
    | bool b => rfl
  · intro pre rest s hpre hs
    have h := checkReqList_append_ok pre (.str s :: rest) 0 hpre
    simp only [JLServe.appDecorator, JLServe.checkRequirements, h, JLServe.checkReqList,
      if_pos hs, Nat.zero_add]
  · intro pre rest v hpre hv
    have h := checkReqList_append_ok pre (v :: rest) 0 hpre
    have hstep : JLServe.checkReqList (v :: rest) pre.length =
        some (.valueError ("requirements[" ++ toString pre.length
          ++ "] must be a string, got " ++ JLServe.pyTypeName v)) := by
      cases v with
      | str t => exact absurd rfl (hv t)
      | int n => rfl
      | bool b => rfl
      | list xs => rfl
      | none => rfl
    simp only [JLServe.appDecorator, JLServe.checkRequirements, h, Nat.zero_add, hstep]
  · intro xs hxs
    have h := checkReqList_append_ok xs [] 0 hxs
    simp only [List.append_nil] at h
    simp only [JLServe.appDecorator, JLServe.checkRequirements, h, JLServe.checkReqList,
      JLServe.recordedRequirements]

/-- Witness for C9: the spec's own examples.  `requirements="torch"` fails
naming type `str`; `["torch", "", "numpy"]` fails naming index 1;
`["torch", 3]` fails naming index 1 and type `int`; no requirements records
`[]`; `["torch", "numpy"]` is recorded unchanged. -/
theorem app_requirements_validation_witness :
    (JLServe.appDecorator Option.none Option.none (.str "torch") ⟨"MyApp"⟩ =
      .error (.valueError "requirements must be a list, got str")) ∧
    (JLServe.appDecorator Option.none Option.none
        (.list [.str "torch", .str "", .str "numpy"]) ⟨"MyApp"⟩ =
      .error (.valueError "requirements[1] must be a non-empty string")) ∧
    (JLServe.appDecorator Option.none Option.none
        (.list [.str "torch", .int 3]) ⟨"MyApp"⟩ =
      .error (.valueError "requirements[1] must be a string, got int")) ∧
    (JLServe.appDecorator Option.none Option.none JLServe.PyVal.none ⟨"MyApp"⟩ =
      .ok (some ⟨"MyApp"⟩,
        { cls := ⟨"MyApp"⟩, jlserve_app := true, appName := "MyApp"
          requirements := [] })) ∧
    (JLServe.appDecorator Option.none Option.none
        (.list [.str "torch", .str "numpy"]) ⟨"MyApp"⟩ =
      .ok (some ⟨"MyApp"⟩,
        { cls := ⟨"MyApp"⟩, jlserve_app := true, appName := "MyApp"
          requirements := [.str "torch", .str "numpy"] })) := by
  have h := app_requirements_validation ⟨"MyApp"⟩ Option.none
  have hokTorch : ∀ x ∈ [JLServe.PyVal.str "torch"],
      ∃ t, x = JLServe.PyVal.str t ∧ JLServe.pyStrip t ≠ "" := by
    intro x hx
    simp only [List.mem_singleton] at hx
    exact ⟨"torch", hx, by decide⟩
  refine ⟨h.1 (.str "torch") (by intro xs hc; cases hc) (by intro hc; cases hc), ?_, ?_, h.2.2.2.1, ?_⟩
  · have := h.2.1 [.str "torch"] [.str "numpy"] "" hokTorch (by decide)
    simpa using this
  · have := h.2.2.1 [.str "torch"] [] (.int 3) hokTorch (by intro t hc; cases hc)
    simpa using this
  · have hok : ∀ x ∈ [JLServe.PyVal.str "torch", JLServe.PyVal.str "numpy"],
        ∃ t, x = JLServe.PyVal.str t ∧ JLServe.pyStrip t ≠ "" := by
      intro x hx
      simp only [List.mem_cons, List.mem_singleton] at hx
      rcases hx with rfl | rfl | hc
      · exact ⟨"torch", rfl, by decide⟩
      · exact ⟨"numpy", rfl, by decide⟩
      · cases hc
    exact h.2.2.2.2 [.str "torch", .str "numpy"] hok

/-! ## Claim C10 -/

/-- C10: the endpoint decorator is behaviour-preserving: the wrapper returns
exactly what the wrapped method returns and raises exactly what it raises,
keeps its `__name__`, and the decorator's only effect is to set the endpoint
marker and the resolved path (`path` when given and non-empty, otherwise
`"/" + method.__name__`). -/
theorem endpoint_wrapper_transparent {α β : Type} (path : Option String)
    (m : JLServe.Method α β) (args : α) :
    (JLServe.endpointDecorator path m).call args = m.call args ∧
    (JLServe.endpointDecorator path m).name = m.name ∧
    (JLServe.endpointDecorator path m).jlserve_endpoint = true ∧
    (JLServe.endpointDecorator path m).jlserve_endpoint_path =
      (match path with
        | Option.none => "/" ++ m.name
        | some p => if p = "" then "/" ++ m.name else p) :=
  ⟨rfl, rfl, rfl, rfl⟩


/-! ## Claim C2 -/

/-- The source's decorator matcher agrees with the claim's wording. -/
theorem is_app_decorator_eq_spec (d : PyAst.Expr) :
    PyAst.is_jlserve_app_decorator d = PyAstSpec.specIsAppDecorator d := by
  cases d with
  | call f kws => cases f <;> rfl
  | attributeExpr v a => rfl
  | name i => rfl
  | constStr s => rfl
  | constOther => rfl
  | listLit elts => rfl
  | otherExpr => rfl

/-- The source's element loop agrees with the claim's "literal-string
elements in order, skipping non-string literal elements". -/
theorem collectLiteralStrings_eq_spec (elts : List PyAst.Expr) :
    PyAst.collectLiteralStrings elts = PyAstSpec.specLiteralStrings elts := by
  induction elts with
  | nil => rfl
  | cons e rest ih =>
    cases e <;>
      simp only [PyAst.collectLiteralStrings, PyAstSpec.specLiteralStrings,
        List.filterMap_cons] <;>
      simpa [PyAstSpec.specLiteralStrings] using ih

/-- Without a `requirements` keyword the keyword loop yields `[]`. -/
theorem findReqKeyword_of_not_mem (kws : List (Option String × PyAst.Expr))
    (h : "requirements" ∉ kws.filterMap Prod.fst) :
    PyAst.findReqKeyword kws = [] := by
  induction kws with
  | nil => rfl
  | cons kv rest ih =>
    obtain ⟨arg, v⟩ := kv
    have harg : ¬ arg = some "requirements" := by
      intro hc
      exact h (by simp [hc, List.filterMap_cons])
    have h' : "requirements" ∉ rest.filterMap Prod.fst := by
      intro hc
      apply h
      cases arg <;> simp [List.filterMap_cons, hc]
    simp [PyAst.findReqKeyword, harg, ih h']

/-- Under the no-duplicate-keyword well-formedness of valid Python sources,
the source's keyword loop agrees with "the first `requirements` keyword, if
its value is a literal list". -/
theorem findReqKeyword_eq_spec (kws : List (Option String × PyAst.Expr))
    (h : (kws.filterMap Prod.fst).Nodup) :
    PyAst.findReqKeyword kws =
      (match kws.find? (fun kv => kv.1 = some "requirements") with
        | some (_, PyAst.Expr.listLit elts) => PyAst.collectLiteralStrings elts
        | _ => []) := by
  induction kws with
  | nil => rfl
  | cons kv rest ih =>
    obtain ⟨arg, v⟩ := kv
    by_cases harg : arg = some "requirements"
    · subst harg
      have hn : ("requirements" :: rest.filterMap Prod.fst).Nodup := by
        simpa [List.filterMap_cons] using h
      have hnotin : "requirements" ∉ rest.filterMap Prod.fst :=
        (List.nodup_cons.mp hn).1
      have hfind : ((some "requirements", v) :: rest).find?
          (fun kv => kv.1 = some "requirements") = some (some "requirements", v) := by
        simp [List.find?]
      rw [hfind]
      cases v <;>
        simp [PyAst.findReqKeyword, findReqKeyword_of_not_mem rest hnotin]
    · have h' : (rest.filterMap Prod.fst).Nodup := by
        cases arg with
        | none => simpa [List.filterMap_cons] using h
        | some a =>
          have hn : (a :: rest.filterMap Prod.fst).Nodup := by
            simpa [List.filterMap_cons] using h
          exact (List.nodup_cons.mp hn).2
      have hfind : ((arg, v) :: rest).find? (fun kv => kv.1 = some "requirements") =
          rest.find? (fun kv => kv.1 = some "requirements") := by
        simp [List.find?, harg]
      simp only [PyAst.findReqKeyword, if_neg harg, hfind, ih h']

/-- The source's per-decorator extraction agrees with the claim's wording,
for decorators whose keyword names are not repeated. -/
theorem extract_requirements_arg_eq_spec (d : PyAst.Expr)
    (h : match d with
      | PyAst.Expr.call _ kws => (kws.filterMap Prod.fst).Nodup
      | _ => True) :
    PyAst.extract_requirements_arg d = PyAstSpec.specRequirementsOf d := by
  cases d with
  | call f kws =>
    have hkw := findReqKeyword_eq_spec kws h
    simp only [PyAst.extract_requirements_arg, PyAstSpec.specRequirementsOf, hkw]
    cases hfind : kws.find? (fun kv => kv.1 = some "requirements") with
    | none => rfl
    | some kv =>
      obtain ⟨a, v⟩ := kv
      cases v <;> simp [collectLiteralStrings_eq_spec]
  | attributeExpr v a => rfl
  | name i => rfl
  | constStr s => rfl
  | constOther => rfl
  | listLit elts => rfl
  | otherExpr => rfl

/-- A decorator returned by the search loop belongs to some class of the
scanned statement list. -/
theorem firstAppDecorator_mem (stmts : List PyAst.Stmt) (d : PyAst.Expr)
    (h : PyAst.firstAppDecorator stmts = some d) :
    ∃ s ∈ stmts, d ∈ PyAst.decoratorsOfStmt s := by
  induction stmts with
  | nil => cases h
  | cons s rest ih =>
    cases s with
    | classDef n decs body =>
      rw [PyAst.firstAppDecorator] at h
      cases hf : decs.find? PyAst.is_jlserve_app_decorator with
      | some d' =>
        rw [hf] at h
        cases h
        refine ⟨.classDef n decs body, by simp, ?_⟩
        simpa [PyAst.decoratorsOfStmt] using List.mem_of_find?_eq_some hf
      | none =>
        rw [hf] at h
        obtain ⟨s', hs', hd⟩ := ih h
        exact ⟨s', by simp [hs'], hd⟩
    | block body =>
      obtain ⟨s', hs', hd⟩ := ih (by simpa [PyAst.firstAppDecorator] using h)
      exact ⟨s', by simp [hs'], hd⟩
    | simple =>
      obtain ⟨s', hs', hd⟩ := ih (by simpa [PyAst.firstAppDecorator] using h)
      exact ⟨s', by simp [hs'], hd⟩

/-- The source's search loop agrees with the claim's matcher along any
statement order. -/
theorem firstAppDecorator_eq_spec (stmts : List PyAst.Stmt) :
    PyAst.firstAppDecorator stmts = PyAstSpec.specFirstAppDecoratorIn stmts := by
  have hfun : PyAst.is_jlserve_app_decorator = PyAstSpec.specIsAppDecorator :=
    funext is_app_decorator_eq_spec
  induction stmts with
  | nil => rfl
  | cons s rest ih =>
    cases s <;>
      simp [PyAst.firstAppDecorator, PyAstSpec.specFirstAppDecoratorIn, hfun, ih]

/-- C2 (amended): for every well-formed parsed source (no repeated keyword
names, as Python syntax guarantees), the extractor returns exactly the
claim's extraction — matching decorator callees, `requirements` keyword,
literal-string elements in order with non-strings skipped, empty list in all
other cases, later app classes ignored — along the breadth-first tree-walk
order of `ast.walk` (which equals declaration order whenever no app class is
nested inside another statement). -/
theorem extract_requirements_matches_spec (tree : List PyAst.Stmt)
    (h : PyAstSpec.decoratorKwsNodup tree) :
    PyAst.extract_requirements_from_file tree = PyAstSpec.amendedC2Extraction tree := by
  unfold PyAst.extract_requirements_from_file PyAstSpec.amendedC2Extraction
  rw [← firstAppDecorator_eq_spec]
  cases hf : PyAst.firstAppDecorator (PyAst.walkStmts tree) with
  | none => rfl
  | some d =>
    obtain ⟨s, hs, hd⟩ := firstAppDecorator_mem _ _ hf
    exact extract_requirements_arg_eq_spec d (h s hs d hd)

/-- Definitional restatement of the extractor, for staged rewriting. -/
theorem extract_requirements_from_file_eq (tree : List PyAst.Stmt) :
    PyAst.extract_requirements_from_file tree =
      (match PyAst.firstAppDecorator (PyAst.walkStmts tree) with
        | some d => PyAst.extract_requirements_arg d
        | Option.none => []) := by
  unfold PyAst.extract_requirements_from_file
  rfl

/-- Definitional restatement of the claim's extraction, for staged
rewriting. -/
theorem claimC2Extraction_eq (tree : List PyAst.Stmt) :
    PyAstSpec.claimC2Extraction tree =
      (match PyAstSpec.specFirstAppDecoratorIn (PyAstSpec.declOrder tree) with
        | some d => PyAstSpec.specRequirementsOf d
        | Option.none => []) := by
  unfold PyAstSpec.claimC2Extraction
  rfl

/-- Witness for C2: a module with one `@jlserve.app(...)` class whose
`requirements` list mixes string and non-string literals. -/
theorem extract_requirements_matches_spec_witness :
    PyAstSpec.decoratorKwsNodup Examples.simpleAppTree ∧
    PyAst.extract_requirements_from_file Examples.simpleAppTree =
      PyAstSpec.amendedC2Extraction Examples.simpleAppTree ∧
    PyAst.extract_requirements_from_file Examples.simpleAppTree = ["torch", "numpy"] := by
  have hwalk : PyAst.walkStmts Examples.simpleAppTree =
      [PyAst.Stmt.block [PyAst.Stmt.simple],
        PyAst.Stmt.classDef "MyApp"
          [PyAst.Expr.call (PyAst.Expr.attributeExpr (PyAst.Expr.name "jlserve") "app")
            [(some "name", PyAst.Expr.constStr "my-app"),
              (some "requirements",
                PyAst.Expr.listLit [PyAst.Expr.constStr "torch", PyAst.Expr.constOther,
                  PyAst.Expr.constStr "numpy"])]] [],
        PyAst.Stmt.simple] := by
    simp only [Examples.simpleAppTree, PyAst.walkStmts_cons, PyAst.walkStmts_nil,
      PyAst.childrenOf, List.cons_append, List.nil_append, List.append_nil]
  have hwf : PyAstSpec.decoratorKwsNodup Examples.simpleAppTree := by
    intro s hs d hd
    rw [hwalk] at hs
    simp only [List.mem_cons, List.not_mem_nil, or_false] at hs
    rcases hs with rfl | rfl | rfl
    · simp [PyAst.decoratorsOfStmt] at hd
    · simp only [PyAst.decoratorsOfStmt, List.mem_cons, List.not_mem_nil,
        or_false] at hd
      subst hd
      decide
    · simp [PyAst.decoratorsOfStmt] at hd
  have hval : PyAst.extract_requirements_from_file Examples.simpleAppTree =
      ["torch", "numpy"] := by
    rw [extract_requirements_from_file_eq, hwalk]
    rfl
  exact ⟨hwf, extract_requirements_matches_spec _ hwf, hval⟩

/-- Counterexample for C2 as stated: with an app-decorated class nested
inside an earlier class, `ast.walk`'s breadth-first order reaches the later
top-level class first, so the extractor does not return the requirements of
the first matching class in declaration order. -/
theorem extract_requirements_decl_order_counterexample :
    PyAst.extract_requirements_from_file Examples.nestedAppTree = ["y"] ∧
    PyAstSpec.claimC2Extraction Examples.nestedAppTree = ["x"] ∧
    PyAst.extract_requirements_from_file Examples.nestedAppTree ≠
      PyAstSpec.claimC2Extraction Examples.nestedAppTree := by
  have hwalk : PyAst.walkStmts Examples.nestedAppTree =
      [PyAst.Stmt.classDef "Outer" []
          [PyAst.Stmt.classDef "Inner"
            [PyAst.Expr.call (PyAst.Expr.name "app")
              [(some "requirements", PyAst.Expr.listLit [PyAst.Expr.constStr "x"])]] []],
        PyAst.Stmt.classDef "Late"
          [PyAst.Expr.call (PyAst.Expr.name "app")
            [(some "requirements", PyAst.Expr.listLit [PyAst.Expr.constStr "y"])]] [],
        PyAst.Stmt.classDef "Inner"
          [PyAst.Expr.call (PyAst.Expr.name "app")
            [(some "requirements", PyAst.Expr.listLit [PyAst.Expr.constStr "x"])]] []] := by
    simp only [Examples.nestedAppTree, PyAst.walkStmts_cons, PyAst.walkStmts_nil,
      PyAst.childrenOf, List.cons_append, List.nil_append, List.append_nil]
  have hdecl : PyAstSpec.declOrder Examples.nestedAppTree =
      [PyAst.Stmt.classDef "Outer" []
          [PyAst.Stmt.classDef "Inner"
            [PyAst.Expr.call (PyAst.Expr.name "app")
              [(some "requirements", PyAst.Expr.listLit [PyAst.Expr.constStr "x"])]] []],
        PyAst.Stmt.classDef "Inner"
          [PyAst.Expr.call (PyAst.Expr.name "app")
            [(some "requirements", PyAst.Expr.listLit [PyAst.Expr.constStr "x"])]] [],
        PyAst.Stmt.classDef "Late"
          [PyAst.Expr.call (PyAst.Expr.name "app")
            [(some "requirements", PyAst.Expr.listLit [PyAst.Expr.constStr "y"])]] []] := by
    simp only [Examples.nestedAppTree, PyAstSpec.declOrder_cons, PyAstSpec.declOrder_nil,
      PyAst.childrenOf, List.cons_append, List.nil_append, List.append_nil]
  have h1 : PyAst.extract_requirements_from_file Examples.nestedAppTree = ["y"] := by
    rw [extract_requirements_from_file_eq, hwalk]
    rfl
  have h2 : PyAstSpec.claimC2Extraction Examples.nestedAppTree = ["x"] := by
    rw [claimC2Extraction_eq, hdecl]
    rfl
  refine ⟨h1, h2, ?_⟩
  rw [h1, h2]
  decide

/-! ## Claim C3 -/

/-- C3: validation of endpoint methods fails fast with exactly the first
failing cause: a handler with no parameter beyond the receiver fails with
"must accept an input parameter"; an unannotated input parameter fails with
"type hint for input parameter" and the parameter's name; a missing return
annotation fails with "must have a return type hint"; a non-Pydantic input
or return annotation fails with a message naming that type; the first
failing endpoint's message is the one `validate_app` reports, and
`validate_app` succeeds only when every check passes (no partial
success). -/
theorem validate_fail_fast_messages :
    (∀ m : Validator.EpMethod, m.params.length < 2 →
      Validator.validateMethod m =
        some ("Endpoint method " ++ m.name
          ++ "() must accept an input parameter with a type hint")) ∧
    (∀ (m : Validator.EpMethod) p0 p rest, m.params = p0 :: p :: rest →
      Validator.hintFor m p = Option.none →
      Validator.validateMethod m =
        some ("Endpoint method " ++ m.name
          ++ "() must have a type hint for input parameter '" ++ p ++ "'")) ∧
    (∀ (m : Validator.EpMethod) p0 p rest t, m.params = p0 :: p :: rest →
      Validator.hintFor m p = some t → m.ret = Option.none →
      Validator.validateMethod m =
        some ("Endpoint method " ++ m.name ++ "() must have a return type hint")) ∧
    (∀ (m : Validator.EpMethod) p0 p rest t r, m.params = p0 :: p :: rest →
      Validator.hintFor m p = some t → m.ret = some r →
      t.isPydanticModel = false →
      Validator.validateMethod m =
        some ("Endpoint method " ++ m.name
          ++ "(): input type must be a Pydantic BaseModel subclass, got " ++ t.reprStr)) ∧
    (∀ (m : Validator.EpMethod) p0 p rest t r, m.params = p0 :: p :: rest →
      Validator.hintFor m p = some t → m.ret = some r →
      t.isPydanticModel = true → r.isPydanticModel = false →
      Validator.validateMethod m =
        some ("Endpoint method " ++ m.name
          ++ "(): return type must be a Pydantic BaseModel subclass, got " ++ r.reprStr)) ∧
    (∀ (pre : List Validator.EpMethod) m post e,
      (∀ x ∈ pre, Validator.validateMethod x = Option.none) →
      Validator.validateMethod m = some e →
      Validator.validate_endpoint_methods (pre ++ m :: post) = some e) ∧
    (∀ (cls : Validator.AppCls) e, cls.jlserve_app = true →
      Validator.validate_endpoint_methods cls.methods = some e →
      Validator.validate_app cls false = some e) ∧
    (∀ cls : Validator.AppCls, Validator.validate_app cls false = Option.none ↔
      (Validator.validate_is_jlserve_app cls = Option.none ∧
        Validator.validate_has_endpoint_methods cls = Option.none ∧
        Validator.validate_endpoint_methods cls.methods = Option.none ∧
        Validator.validate_no_duplicate_paths cls.methods = Option.none)) := by
  refine ⟨?_, ?_, ?_, ?_, ?_, ?_, ?_, ?_⟩
  · intro m h
    have hth : Validator.validate_method_type_hints m =
        some ("Endpoint method " ++ m.name
          ++ "() must accept an input parameter with a type hint") := by
      rcases hm : m.params with _ | ⟨p0, _ | ⟨p1, rest1⟩⟩
      · simp [Validator.validate_method_type_hints, hm]
      · simp [Validator.validate_method_type_hints, hm]
      · rw [hm] at h
        simp at h
        omega
    simp only [Validator.validateMethod]
    exact orElse_eq_some_left _ _ _ hth
  · intro m p0 p rest hm hh
    have hth : Validator.validate_method_type_hints m =
        some ("Endpoint method " ++ m.name
          ++ "() must have a type hint for input parameter '" ++ p ++ "'") := by
      simp [Validator.validate_method_type_hints, hm, hh]
    simp only [Validator.validateMethod]
    exact orElse_eq_some_left _ _ _ hth
  · intro m p0 p rest t hm hh hret
    have hth : Validator.validate_method_type_hints m =
        some ("Endpoint method " ++ m.name ++ "() must have a return type hint") := by
      simp [Validator.validate_method_type_hints, hm, hh, hret]
    simp only [Validator.validateMethod]
    exact orElse_eq_some_left _ _ _ hth
  · intro m p0 p rest t r hm hh hret ht
    have hth : Validator.validate_method_type_hints m = Option.none := by
      simp [Validator.validate_method_type_hints, hm, hh, hret]
    have hin : Validator.validate_method_input_is_pydantic_model m =
        some ("Endpoint method " ++ m.name
          ++ "(): input type must be a Pydantic BaseModel subclass, got "
          ++ t.reprStr) := by
      simp [Validator.validate_method_input_is_pydantic_model, hm, hh, ht]
    simp only [Validator.validateMethod]
    rw [orElse_none_left _ _ hth]
    exact orElse_eq_some_left _ _ _ hin
  · intro m p0 p rest t r hm hh hret ht hr
    have hth : Validator.validate_method_type_hints m = Option.none := by
      simp [Validator.validate_method_type_hints, hm, hh, hret]
    have hin : Validator.validate_method_input_is_pydantic_model m = Option.none := by
      simp [Validator.validate_method_input_is_pydantic_model, hm, hh, ht]
    have hout : Validator.validate_method_output_is_pydantic_model m =
        some ("Endpoint method " ++ m.name
          ++ "(): return type must be a Pydantic BaseModel subclass, got "
          ++ r.reprStr) := by
      simp [Validator.validate_method_output_is_pydantic_model, hret, hr]
    simp only [Validator.validateMethod]
    rw [orElse_none_left _ _ hth, orElse_none_left _ _ hin]
    exact hout
  · intro pre m post e hpre hm
    induction pre with
    | nil =>
      simp only [List.nil_append, Validator.validate_endpoint_methods]
      exact orElse_eq_some_left _ _ _ hm
    | cons x pre ih =>
      have hx := hpre x (by simp)
      simp only [List.cons_append, Validator.validate_endpoint_methods]
      rw [orElse_none_left _ _ hx]
      exact ih fun y hy => hpre y (by simp [hy])
  · intro cls e happ hmeth
    have h1 : Validator.validate_is_jlserve_app cls = Option.none := by
      simp [Validator.validate_is_jlserve_app, happ]
    have h2 : Validator.validate_has_endpoint_methods cls = Option.none := by
      rcases hm : cls.methods with _ | ⟨x, xs⟩
      · rw [hm] at hmeth
        simp [Validator.validate_endpoint_methods] at hmeth
      · simp [Validator.validate_has_endpoint_methods, hm]
    simp only [Validator.validate_app]
    rw [orElse_none_left _ _ h1, orElse_none_left _ _ h2]
    exact orElse_eq_some_left _ _ _ hmeth
  · intro cls
    simp only [Validator.validate_app, orElse_eq_none_iff, Bool.false_eq_true,
      if_false]
    tauto

/-- Witness for C3: one concrete method per failure mode, and a concrete
app class whose first failing endpoint's message is the one `validate_app`
reports; a fully valid class validates to `none`. -/
theorem validate_fail_fast_messages_witness :
    Validator.validateMethod ⟨"run", ["self"], [], Option.none, "/run"⟩ =
      some "Endpoint method run() must accept an input parameter with a type hint" ∧
    Validator.validateMethod ⟨"predict", ["self", "input"], [], Option.none, "/predict"⟩ =
      some "Endpoint method predict() must have a type hint for input parameter 'input'" ∧
    Validator.validateMethod
        ⟨"predict", ["self", "input"], [("input", ⟨"<class 'Input'>", true⟩)],
          Option.none, "/predict"⟩ =
      some "Endpoint method predict() must have a return type hint" ∧
    Validator.validateMethod
        ⟨"predict", ["self", "input"], [("input", ⟨"<class 'str'>", false⟩)],
          some ⟨"<class 'Output'>", true⟩, "/predict"⟩ =
      some "Endpoint method predict(): input type must be a Pydantic BaseModel subclass, got <class 'str'>" ∧
    Validator.validateMethod
        ⟨"predict", ["self", "input"], [("input", ⟨"<class 'Input'>", true⟩)],
          some ⟨"<class 'dict'>", false⟩, "/predict"⟩ =
      some "Endpoint method predict(): return type must be a Pydantic BaseModel subclass, got <class 'dict'>" ∧
    Validator.validate_endpoint_methods
        [⟨"health", ["self", "input"], [("input", ⟨"<class 'Input'>", true⟩)],
          some ⟨"<class 'Output'>", true⟩, "/health"⟩,
         ⟨"predict", ["self", "input"], [("input", ⟨"<class 'Input'>", true⟩)],
          some ⟨"<class 'dict'>", false⟩, "/predict"⟩] =
      some "Endpoint method predict(): return type must be a Pydantic BaseModel subclass, got <class 'dict'>" ∧
    Validator.validate_app
        ⟨"MyApp", true,
          [⟨"health", ["self", "input"], [("input", ⟨"<class 'Input'>", true⟩)],
            some ⟨"<class 'Output'>", true⟩, "/health"⟩,
           ⟨"predict", ["self", "input"], [("input", ⟨"<class 'Input'>", true⟩)],
            some ⟨"<class 'dict'>", false⟩, "/predict"⟩],
          Option.none, Option.none⟩ false =
      some "Endpoint method predict(): return type must be a Pydantic BaseModel subclass, got <class 'dict'>" ∧
    Validator.validate_app
        ⟨"MyApp", true,
          [⟨"health", ["self", "input"], [("input", ⟨"<class 'Input'>", true⟩)],
            some ⟨"<class 'Output'>", true⟩, "/health"⟩],
          Option.none, Option.none⟩ false = Option.none := by
  have h := validate_fail_fast_messages
  refine ⟨h.1 _ (by decide), h.2.1 _ "self" "input" [] rfl rfl,
    h.2.2.1 _ "self" "input" [] ⟨"<class 'Input'>", true⟩ rfl rfl rfl,
    h.2.2.2.1 _ "self" "input" [] ⟨"<class 'str'>", false⟩ ⟨"<class 'Output'>", true⟩
      rfl rfl rfl rfl,
    h.2.2.2.2.1 _ "self" "input" [] ⟨"<class 'Input'>", true⟩ ⟨"<class 'dict'>", false⟩
      rfl rfl rfl rfl rfl, ?_, ?_, ?_⟩
  · exact h.2.2.2.2.2.1
      [⟨"health", ["self", "input"], [("input", ⟨"<class 'Input'>", true⟩)],
        some ⟨"<class 'Output'>", true⟩, "/health"⟩] _ [] _
      (by intro x hx; simp only [List.mem_singleton] at hx; subst hx; rfl) rfl
  · exact h.2.2.2.2.2.2.1 _ _ rfl
      (h.2.2.2.2.2.1
        [⟨"health", ["self", "input"], [("input", ⟨"<class 'Input'>", true⟩)],
          some ⟨"<class 'Output'>", true⟩, "/health"⟩] _ [] _
        (by intro x hx; simp only [List.mem_singleton] at hx; subst hx; rfl) rfl)
  · exact (h.2.2.2.2.2.2.2 _).mpr ⟨rfl, rfl, rfl, rfl⟩

/-! ## Claim C4 -/

/-- When every method's path is fresh (unseen and pairwise distinct), the
duplicate-path loop accepts. -/
theorem dupPathLoop_none (ms : List Validator.EpMethod) :
    ∀ seen, List.Pairwise (· ≠ ·) (ms.map (·.path)) →
    (∀ x ∈ ms, seen.find? (fun kv => kv.1 = x.path) = Option.none) →
    Validator.dupPathLoop ms seen = Option.none := by
  induction ms with
  | nil => intro seen _ _; rfl
  | cons m rest ih =>
    intro seen hpw hf
    have hm := hf m (by simp)
    rw [List.map_cons] at hpw
    have hcons := List.pairwise_cons.mp hpw
    simp only [Validator.dupPathLoop, hm]
    refine ih ((m.path, m.name) :: seen) hcons.2 fun x hx => ?_
    rw [List.find?_cons_of_neg]
    · exact hf x (List.mem_cons_of_mem _ hx)
    · simp only [decide_eq_true_eq]
      exact hcons.1 x.path (List.mem_map.mpr ⟨x, hx, rfl⟩)

/-- Once the first occurrence of a path is recorded in `seen`, reaching a
second method with that path reports the recorded first name and the current
method's name. -/
theorem dupPathLoop_hit (mid : List Validator.EpMethod) :
    ∀ (seen : List (String × String)) (m2 : Validator.EpMethod) post a,
    seen.find? (fun kv => kv.1 = m2.path) = some (m2.path, a) →
    (∀ x ∈ mid, seen.find? (fun kv => kv.1 = x.path) = Option.none) →
    List.Pairwise (· ≠ ·) (mid.map (·.path)) →
    (∀ x ∈ mid, x.path ≠ m2.path) →
    Validator.dupPathLoop (mid ++ m2 :: post) seen =
      some ("Duplicate endpoint path '" ++ m2.path ++ "' found in methods "
        ++ a ++ "() and " ++ m2.name ++ "()") := by
  induction mid with
  | nil =>
    intro seen m2 post a hfind _ _ _
    simp only [List.nil_append, Validator.dupPathLoop, hfind]
  | cons x mid ih =>
    intro seen m2 post a hfind hfresh hpw hne
    have hx := hfresh x (by simp)
    rw [List.map_cons] at hpw
    have hcons := List.pairwise_cons.mp hpw
    simp only [List.cons_append, Validator.dupPathLoop, hx]
    refine ih ((x.path, x.name) :: seen) m2 post a ?_ ?_ hcons.2 ?_
    · rw [List.find?_cons_of_neg]
      · exact hfind
      · simp only [decide_eq_true_eq]
        exact hne x (by simp)
    · intro y hy
      rw [List.find?_cons_of_neg]
      · exact hfresh y (List.mem_cons_of_mem _ hy)
      · simp only [decide_eq_true_eq]
        exact hcons.1 y.path (List.mem_map.mpr ⟨y, hy, rfl⟩)
    · exact fun y hy => hne y (List.mem_cons_of_mem _ hy)

/-- Scanning up to the first repeated path reports the first occurrence's
name and the current method's name, with the shared path. -/
theorem dupPathLoop_first_dup (pre : List Validator.EpMethod) :
    ∀ seen (m1 : Validator.EpMethod) mid (m2 : Validator.EpMethod) post,
    (∀ x ∈ pre ++ m1 :: mid, seen.find? (fun kv => kv.1 = x.path) = Option.none) →
    List.Pairwise (· ≠ ·) ((pre ++ m1 :: mid).map (·.path)) →
    m2.path = m1.path →
    Validator.dupPathLoop (pre ++ m1 :: mid ++ m2 :: post) seen =
      some ("Duplicate endpoint path '" ++ m2.path ++ "' found in methods "
        ++ m1.name ++ "() and " ++ m2.name ++ "()") := by
  induction pre with
  | nil =>
    intro seen m1 mid m2 post hfresh hpw heq
    simp only [List.nil_append] at hfresh hpw ⊢
    have h1 := hfresh m1 (by simp)
    rw [List.map_cons] at hpw
    have hcons := List.pairwise_cons.mp hpw
    simp only [Validator.dupPathLoop, h1]
    refine dupPathLoop_hit mid ((m1.path, m1.name) :: seen) m2 post m1.name ?_ ?_
      hcons.2 ?_
    · rw [heq, List.find?_cons_of_pos]
      simp
    · intro y hy
      rw [List.find?_cons_of_neg]
      · exact hfresh y (List.mem_cons_of_mem _ hy)
      · simp only [decide_eq_true_eq]
        exact hcons.1 y.path (List.mem_map.mpr ⟨y, hy, rfl⟩)
    · intro y hy hc
      exact hcons.1 y.path (List.mem_map.mpr ⟨y, hy, rfl⟩) (heq ▸ hc).symm
  | cons x pre ih =>
    intro seen m1 mid m2 post hfresh hpw heq
    simp only [List.cons_append] at hfresh hpw ⊢
    have hx := hfresh x (by simp)
    rw [List.map_cons] at hpw
    have hcons := List.pairwise_cons.mp hpw
    simp only [Validator.dupPathLoop, hx]
    refine ih ((x.path, x.name) :: seen) m1 mid m2 post ?_ hcons.2 heq
    intro y hy
    rw [List.find?_cons_of_neg]
    · exact hfresh y (List.mem_cons_of_mem _ hy)
    · simp only [decide_eq_true_eq]
      exact hcons.1 y.path (List.mem_map.mpr ⟨y, hy, rfl⟩)

/-- All method checks passing makes the per-endpoint stage accept. -/
theorem validate_endpoint_methods_none (ms : List Validator.EpMethod)
    (h : ∀ x ∈ ms, Validator.validateMethod x = Option.none) :
    Validator.validate_endpoint_methods ms = Option.none := by
  induction ms with
  | nil => rfl
  | cons m rest ih =>
    simp only [Validator.validate_endpoint_methods]
    rw [orElse_none_left _ _ (h m (by simp))]
    exact ih fun x hx => h x (List.mem_cons_of_mem _ hx)

/-- C4: two endpoint methods resolving to the same path make validation fail
with `Duplicate endpoint path '<path>' found in methods <a>() and <b>()`,
naming the first method that claimed the path, the later method, and the
shared path; this is the message `validate_app` reports once the per-method
checks pass, and with pairwise-distinct resolved paths the duplicate-path
check passes. -/
theorem duplicate_endpoint_paths (cls : Validator.AppCls) :
    (∀ pre (m1 : Validator.EpMethod) mid (m2 : Validator.EpMethod) post,
      cls.methods = pre ++ m1 :: mid ++ m2 :: post →
      List.Pairwise (· ≠ ·) ((pre ++ m1 :: mid).map (·.path)) →
      m2.path = m1.path →
      Validator.validate_no_duplicate_paths cls.methods =
        some ("Duplicate endpoint path '" ++ m2.path ++ "' found in methods "
          ++ m1.name ++ "() and " ++ m2.name ++ "()") ∧
      (cls.jlserve_app = true →
        (∀ x ∈ cls.methods, Validator.validateMethod x = Option.none) →
        Validator.validate_app cls false =
          some ("Duplicate endpoint path '" ++ m2.path ++ "' found in methods "
            ++ m1.name ++ "() and " ++ m2.name ++ "()"))) ∧
    (List.Pairwise (· ≠ ·) (cls.methods.map (·.path)) →
      Validator.validate_no_duplicate_paths cls.methods = Option.none) := by
  constructor
  · intro pre m1 mid m2 post hm hpw heq
    have hdup : Validator.validate_no_duplicate_paths cls.methods =
        some ("Duplicate endpoint path '" ++ m2.path ++ "' found in methods "
          ++ m1.name ++ "() and " ++ m2.name ++ "()") := by
      rw [hm]
      exact dupPathLoop_first_dup pre [] m1 mid m2 post (fun x _ => rfl) hpw heq
    refine ⟨hdup, fun happ hall => ?_⟩
    have h1 : Validator.validate_is_jlserve_app cls = Option.none := by
      simp [Validator.validate_is_jlserve_app, happ]
    have h2 : Validator.validate_has_endpoint_methods cls = Option.none := by
      rcases hml : cls.methods with _ | ⟨y, ys⟩
      · rw [hml] at hm
        rcases pre with _ | ⟨z, zs⟩ <;> simp at hm
      · simp [Validator.validate_has_endpoint_methods, hml]
    have h3 := validate_endpoint_methods_none cls.methods hall
    simp only [Validator.validate_app]
    rw [orElse_none_left _ _ h1, orElse_none_left _ _ h2, orElse_none_left _ _ h3]
    exact orElse_eq_some_left _ _ _ hdup
  · intro hpw
    exact dupPathLoop_none cls.methods [] hpw fun x _ => rfl

/-- Witness for C4: `predict` and `infer` both resolving to `/predict`
produce the duplicate-path message through `validate_app`; with distinct
paths the check passes. -/
theorem duplicate_endpoint_paths_witness :
    Validator.validate_app
        ⟨"MyApp", true,
          [⟨"predict", ["self", "input"], [("input", ⟨"<class 'Input'>", true⟩)],
            some ⟨"<class 'Output'>", true⟩, "/predict"⟩,
           ⟨"infer", ["self", "input"], [("input", ⟨"<class 'Input'>", true⟩)],
            some ⟨"<class 'Output'>", true⟩, "/predict"⟩],
          Option.none, Option.none⟩ false =
      some "Duplicate endpoint path '/predict' found in methods predict() and infer()" ∧
    Validator.validate_no_duplicate_paths
        [⟨"predict", ["self", "input"], [("input", ⟨"<class 'Input'>", true⟩)],
          some ⟨"<class 'Output'>", true⟩, "/predict"⟩,
         ⟨"infer", ["self", "input"], [("input", ⟨"<class 'Input'>", true⟩)],
          some ⟨"<class 'Output'>", true⟩, "/infer"⟩] = Option.none := by
  constructor
  · exact ((duplicate_endpoint_paths _).1 []
      ⟨"predict", ["self", "input"], [("input", ⟨"<class 'Input'>", true⟩)],
        some ⟨"<class 'Output'>", true⟩, "/predict"⟩ []
      ⟨"infer", ["self", "input"], [("input", ⟨"<class 'Input'>", true⟩)],
        some ⟨"<class 'Output'>", true⟩, "/predict"⟩ []
      rfl (by simp) rfl).2 rfl
      (by
        intro x hx
        simp only [List.mem_cons, List.not_mem_nil, or_false] at hx
        rcases hx with rfl | rfl <;> rfl)
  · exact (duplicate_endpoint_paths
      ⟨"MyApp", true,
        [⟨"predict", ["self", "input"], [("input", ⟨"<class 'Input'>", true⟩)],
          some ⟨"<class 'Output'>", true⟩, "/predict"⟩,
         ⟨"infer", ["self", "input"], [("input", ⟨"<class 'Input'>", true⟩)],
          some ⟨"<class 'Output'>", true⟩, "/infer"⟩],
        Option.none, Option.none⟩).2 (by simp)

/-! ## Claim C5 -/

/-- C5 (amended): once the normal checks succeed, strict mode
(`require_download_weights=True`) additionally runs exactly the
`download_weights` check: the class must provide a callable
`download_weights` accepting only `self` and returning nothing, with
violations reporting the full parameter list found or the non-`None` return
annotation.  `setup` is not checked by strict mode (see the
counterexample). -/
theorem validate_app_strict_mode (cls : Validator.AppCls) :
    (Validator.validate_app cls false = Option.none →
      Validator.validate_app cls true =
        Validator.validate_download_weights_method cls) ∧
    (cls.downloadWeightsMethod = Option.none →
      Validator.validate_download_weights_method cls =
        some ("App " ++ cls.name ++ " must define a download_weights() method")) ∧
    (∀ m, cls.downloadWeightsMethod = some m → m.callable = false →
      Validator.validate_download_weights_method cls =
        some "download_weights must be a method") ∧
    (∀ m, cls.downloadWeightsMethod = some m → m.callable = true →
      m.params ≠ ["self"] →
      Validator.validate_download_weights_method cls =
        some ("download_weights() must only accept 'self', got "
          ++ Validator.pyListRepr m.params)) ∧
    (∀ m r, cls.downloadWeightsMethod = some m → m.callable = true →
      m.params = ["self"] → m.retAnnot = some r → r ≠ "None" →
      Validator.validate_download_weights_method cls =
        some ("download_weights() must return None, got " ++ r)) ∧
    (∀ m, cls.downloadWeightsMethod = some m → m.callable = true →
      m.params = ["self"] →
      (m.retAnnot = Option.none ∨ m.retAnnot = some "None") →
      Validator.validate_download_weights_method cls = Option.none) := by
  refine ⟨?_, ?_, ?_, ?_, ?_, ?_⟩
  · intro h
    simp only [Validator.validate_app, orElse_eq_none_iff, Bool.false_eq_true,
      if_false] at h
    obtain ⟨h1, h2, h3, h4, _⟩ := h
    simp only [Validator.validate_app, if_true]
    rw [orElse_none_left _ _ h1, orElse_none_left _ _ h2, orElse_none_left _ _ h3,
      orElse_none_left _ _ h4]
  · intro h
    simp [Validator.validate_download_weights_method, h]
  · intro m hm hc
    simp [Validator.validate_download_weights_method, hm, hc]
  · intro m hm hc hp
    simp [Validator.validate_download_weights_method, hm, hc, hp]
  · intro m r hm hc hp hr hnone
    simp [Validator.validate_download_weights_method, hm, hc, hp, hr, hnone]
  · intro m hm hc hp hr
    rcases hr with h | h <;>
      simp [Validator.validate_download_weights_method, hm, hc, hp, h]

/-- Counterexample for C5 as stated: a class that passes all normal checks
and provides a well-formed `download_weights` but NO `setup` method still
passes strict-mode validation, so strict mode does not require the `setup`
lifecycle method (`validate_app`'s strict branch only runs the
`download_weights` check; `validate_setup_method` is never invoked). -/
theorem strict_mode_ignores_setup_counterexample :
    Validator.validate_app
        ⟨"WeightsApp", true,
          [⟨"predict", ["self", "input"], [("input", ⟨"<class 'Input'>", true⟩)],
            some ⟨"<class 'Output'>", true⟩, "/predict"⟩],
          Option.none, some ⟨true, ["self"], some "None"⟩⟩ true = Option.none ∧
    (⟨"WeightsApp", true,
        [⟨"predict", ["self", "input"], [("input", ⟨"<class 'Input'>", true⟩)],
          some ⟨"<class 'Output'>", true⟩, "/predict"⟩],
        Option.none, some ⟨true, ["self"], some "None"⟩⟩ :
      Validator.AppCls).setupMethod = Option.none :=
  ⟨rfl, rfl⟩

/-- Witness for C5 (amended): a valid strict-mode class passes; a missing,
non-callable, extra-parameter or non-`None`-returning `download_weights`
produces the corresponding strict-mode message. -/
theorem validate_app_strict_mode_witness :
    Validator.validate_app
        ⟨"WeightsApp", true,
          [⟨"predict", ["self", "input"], [("input", ⟨"<class 'Input'>", true⟩)],
            some ⟨"<class 'Output'>", true⟩, "/predict"⟩],
          Option.none, some ⟨true, ["self"], some "None"⟩⟩ true =
      Validator.validate_download_weights_method
        ⟨"WeightsApp", true,
          [⟨"predict", ["self", "input"], [("input", ⟨"<class 'Input'>", true⟩)],
            some ⟨"<class 'Output'>", true⟩, "/predict"⟩],
          Option.none, some ⟨true, ["self"], some "None"⟩⟩ ∧
    Validator.validate_download_weights_method
        ⟨"WeightsApp", true, [], Option.none, Option.none⟩ =
      some "App WeightsApp must define a download_weights() method" ∧
    Validator.validate_download_weights_method
        ⟨"WeightsApp", true, [], Option.none, some ⟨false, [], Option.none⟩⟩ =
      some "download_weights must be a method" ∧
    Validator.validate_download_weights_method
        ⟨"WeightsApp", true, [], Option.none,
          some ⟨true, ["self", "cache_dir"], some "None"⟩⟩ =
      some "download_weights() must only accept 'self', got ['self', 'cache_dir']" ∧
    Validator.validate_download_weights_method
        ⟨"WeightsApp", true, [], Option.none, some ⟨true, ["self"], some "str"⟩⟩ =
      some "download_weights() must return None, got str" ∧
    Validator.validate_download_weights_method
        ⟨"WeightsApp", true, [], Option.none, some ⟨true, ["self"], Option.none⟩⟩ =
      Option.none := by
  refine ⟨(validate_app_strict_mode _).1 rfl,
    (validate_app_strict_mode _).2.1 rfl,
    (validate_app_strict_mode _).2.2.1 ⟨false, [], Option.none⟩ rfl rfl,
    (validate_app_strict_mode _).2.2.2.1 ⟨true, ["self", "cache_dir"], some "None"⟩
      rfl rfl (by decide),
    (validate_app_strict_mode _).2.2.2.2.1 ⟨true, ["self"], some "str"⟩ "str"
      rfl rfl rfl rfl (by decide),
    (validate_app_strict_mode _).2.2.2.2.2 ⟨true, ["self"], Option.none⟩
      rfl rfl rfl (Or.inl rfl)⟩

/-! ## Claim C6 -/

/-- C6: `create_app` runs the contract validator before anything else: a
failing class aborts with that validation error and is never instantiated
(instantiation count 0); a passing class is instantiated exactly once
(count 1) and every registered route is bound to that single shared
instance. -/
theorem create_app_validate_first_single_instance (c : Server.RtAppCls) (uid : Nat) :
    (∀ e, Validator.validate_app c.toV false = some e →
      Server.create_app c uid = (.error e, 0)) ∧
    (Validator.validate_app c.toV false = Option.none →
      ∃ svc, Server.create_app c uid = (.ok svc, 1) ∧
        svc.app_instance = ⟨c.name, uid⟩ ∧
        (∀ r ∈ svc.routes, r.boundInstance = svc.app_instance) ∧
        svc.routes.length = c.methods.length) := by
  constructor
  · intro e he
    simp [Server.create_app, he]
  · intro hnone
    refine ⟨{ title := (c.appName).getD "app"
              app_instance := ⟨c.name, uid⟩
              routes := c.methods.map fun m =>
                { path := m.sig.path
                  methodName := m.sig.name
                  boundInstance := ⟨c.name, uid⟩
                  handler := fun input => Server.routeHandler c m.sig.name input }
              setupBehaviour := c.setupBehaviour }, ?_, rfl, ?_, by simp⟩
    · simp [Server.create_app, hnone]
    · intro r hr
      simp only [List.mem_map] at hr
      obtain ⟨m, _, rfl⟩ := hr
      rfl

/-- Witness for C6: a non-app class aborts with the validator's message and
count 0; a valid echo app yields one shared instance bound to its route. -/
theorem create_app_validate_first_single_instance_witness :
    Server.create_app
        ⟨"EchoApp", false, some "echo",
          [⟨⟨"predict", ["self", "input"], [("input", ⟨"<class 'Input'>", true⟩)],
              some ⟨"<class 'Output'>", true⟩, "/predict"⟩,
            fun v => .ok v⟩],
          Option.none, Option.none⟩ 7 =
      (.error "Class EchoApp must be decorated with @jlserve.app()", 0) ∧
    (∃ svc, Server.create_app
        ⟨"EchoApp", true, some "echo",
          [⟨⟨"predict", ["self", "input"], [("input", ⟨"<class 'Input'>", true⟩)],
              some ⟨"<class 'Output'>", true⟩, "/predict"⟩,
            fun v => .ok v⟩],
          Option.none, Option.none⟩ 3 = (.ok svc, 1) ∧
      svc.app_instance = ⟨"EchoApp", 3⟩ ∧
      (∀ r ∈ svc.routes, r.boundInstance = svc.app_instance) ∧
      svc.routes.length = 1) := by
  constructor
  · exact (create_app_validate_first_single_instance _ 7).1 _ rfl
  · exact (create_app_validate_first_single_instance _ 3).2 rfl

/-! ## Claim C7 -/

/-- C7: when the instance's `setup` raises during startup, the error is
wrapped as `EndpointSetupError` whose message contains the original text
(`setup() failed: <original>`), the service ends `failed` — never `ready` —
and no request is dispatchable in that state. -/
theorem setup_failure_never_ready (svc : Server.BoundService) (msg : String)
    (h : svc.setupBehaviour = some (.exn msg)) :
    Server.startup svc =
      (Server.ServiceState.failed,
        some (.endpointSetupError ("setup() failed: " ++ msg))) ∧
    (Server.startup svc).1 ≠ Server.ServiceState.ready ∧
    (∀ path input, Server.dispatch svc Server.ServiceState.failed path input =
      Option.none) := by
  refine ⟨by simp [Server.startup, h], by simp [Server.startup, h], ?_⟩
  intro path input
  simp [Server.dispatch]

/-- Witness for C7: a service whose setup raises `boom`. -/
theorem setup_failure_never_ready_witness :
    Server.startup ⟨"echo", ⟨"EchoApp", 0⟩, [], some (.exn "boom")⟩ =
      (Server.ServiceState.failed,
        some (.endpointSetupError "setup() failed: boom")) ∧
    (Server.startup ⟨"echo", ⟨"EchoApp", 0⟩, [], some (.exn "boom")⟩).1 ≠
      Server.ServiceState.ready ∧
    (∀ path input,
      Server.dispatch ⟨"echo", ⟨"EchoApp", 0⟩, [], some (.exn "boom")⟩
        Server.ServiceState.failed path input = Option.none) :=
  setup_failure_never_ready ⟨"echo", ⟨"EchoApp", 0⟩, [], some (.exn "boom")⟩ "boom" rfl

/-! ## Claim C8 -/

/-- C8: an exception raised by an endpoint handler body is caught at the
dispatch boundary and becomes a uniform `500` failure response whose detail
is the original exception's message; it is never re-raised past the
boundary. -/
theorem handler_exception_recovered (c : Server.RtAppCls) (n : String)
    (m : Server.RtMethod) (input : JLServe.PyVal) (msg : String)
    (hm : Server.methodByName c n = some m) (hr : m.run input = .exn msg) :
    Server.routeHandler c n input = .ok (.jsonError 500 msg) := by
  simp [Server.routeHandler, hm, hr]

/-- Witness for C8: a handler raising `ValueError("boom")` yields the
uniform `500` response carrying `boom`. -/
theorem handler_exception_recovered_witness :
    Server.routeHandler
        ⟨"FailApp", true, Option.none,
          [⟨⟨"fail", ["self", "input"], [("input", ⟨"<class 'Input'>", true⟩)],
              some ⟨"<class 'Output'>", true⟩, "/fail"⟩,
            fun _ => .exn "boom"⟩],
          Option.none, Option.none⟩ "fail" JLServe.PyVal.none =
      .ok (.jsonError 500 "boom") :=
  handler_exception_recovered _ "fail"
    ⟨⟨"fail", ["self", "input"], [("input", ⟨"<class 'Input'>", true⟩)],
        some ⟨"<class 'Output'>", true⟩, "/fail"⟩,
      fun _ => .exn "boom"⟩
    JLServe.PyVal.none "boom" rfl rfl
